import Mathlib

/-!
Shallow embedding of the client-side workflow controller of the
customer-notes Q&A application (source: CustomerNotesApp.tsx).

The component keeps its state in React `useState` cells; here that state is
the explicit structure `AppState`.  Each backend collaborator (the
note-retrieval, HTML-cleaning, relevance-filtering and question-answering
HTTP endpoints) is modelled as an oracle value or function describing the
outcome of one call: a thrown transport error, a non-2xx response, or a
2xx response carrying a JSON payload.  The TypeScript functions
`fetchNotes`, `processQuestions`, `toggleNoteSelection`,
`calculateSummaryStats`, `generateCSV`, `canNavigateToStep` and
`navigateToStep` are translated below, keeping their names.

JavaScript arrays that can contain `undefined` (the result of the
non-null-asserted `filteredNotes.find(...)!` in `toggleNoteSelection`) are
modelled as `List (Option CustomerNote)`: `none` is `undefined`.  A
JavaScript expression that would throw a TypeError (reading `.NoteID` of
`undefined`) is modelled with `Except Unit`.
-/

/-- Data model of a customer note (interface CustomerNote of the source). -/
structure CustomerNote where
  CustomerName : String
  ProductManagerName : String
  NoteID : String
  Date : String
  Subject : String
  NoteContent : String
  CleanedNoteContent : String
deriving DecidableEq, Repr

/-- Data model of one answer (interface QAAnswer of the source):
`answer` is "Yes", "No", "Maybe" or "-", `evidence` a list of quotes. -/
structure QAAnswer where
  answer : String
  evidence : List String
deriving DecidableEq, Repr

/-- Data model of one per-note result row (interface QAResult of the source). -/
structure QAResult where
  noteId : String
  customerName : String
  pmAuthor : String
  date : String
  answers : List QAAnswer
deriving DecidableEq, Repr

/-- The AppStep union type of the source:
`type AppStep = 'input' | 'notes' | 'review' | 'questions' | 'results'`. -/
inductive AppStep where
  | input
  | notes
  | review
  | questions
  | results
deriving DecidableEq, Repr

/-- The component state: one field per `useState` cell the embedded
operations read or write.  `selectedNotes` is a list of possibly-undefined
entries, because `toggleNoteSelection` can push the result of a
non-null-asserted `Array.find` into it. -/
structure AppState where
  currentStep : AppStep
  loading : Bool
  progressStatus : String
  rawNotes : List CustomerNote
  filteredNotes : List CustomerNote
  selectedNotes : List (Option CustomerNote)
  showNotesCount : Bool
  questions : List String
  qaResults : List QAResult
deriving DecidableEq, Repr

/-- The initial state of the component (the `useState` initial values). -/
def initialState : AppState where
  currentStep := .input
  loading := false
  progressStatus := ""
  rawNotes := []
  filteredNotes := []
  selectedNotes := []
  showNotesCount := false
  questions := []
  qaResults := []

/-! ## Collaborator call outcomes -/

/-- Outcome of one POST to /api/notes/answer-questions for a singleton
(note, question) pair: a thrown transport error or non-2xx response
(`failed`, both take the same code path), or a 2xx response whose JSON
body is a list of QAResult values. -/
inductive QACallOutcome where
  | failed
  | succeeded (result : List QAResult)

/-- Outcome of one POST to /api/notes/filter-relevance for a singleton
note: a thrown transport error, a non-2xx response, or a 2xx response
whose JSON body is a list of notes. -/
inductive RelevanceCallOutcome where
  | thrown
  | notOk
  | okResponse (result : List CustomerNote)

/-- Outcome of the POST to /api/notes/fetch-notes: `failed` covers both a
thrown transport error and a non-2xx response (the source throws on
`!response.ok`), `ok` carries the returned notes. -/
inductive FetchCallOutcome where
  | failed
  | ok (data : List CustomerNote)

/-- Outcome of the POST to /api/notes/transform-notes, as for the fetch. -/
inductive TransformCallOutcome where
  | failed
  | ok (transformedData : List CustomerNote)

/-- The backend collaborators one run of `fetchNotes` talks to. -/
structure FetchEnv where
  fetchResp : FetchCallOutcome
  transformResp : List CustomerNote → TransformCallOutcome
  relevance : CustomerNote → RelevanceCallOutcome

/-! ## processQuestions (source lines 201-279) -/

/-- The answer `processQuestions` records for one (note, question) pair,
from the outcome of its QA request: on a 2xx response with
`result.length > 0 && result[0].answers.length > 0` the first answer of
the first result, otherwise (non-2xx, thrown, empty result list, or a
first result with no answers) the sentinel `{answer:'-', evidence:[]}`. -/
def pairAnswer (outcome : QACallOutcome) : QAAnswer :=
  match outcome with
  | .failed => { answer := "-", evidence := [] }
  | .succeeded result =>
    match result with
    | [] => { answer := "-", evidence := [] }
    | r :: _ =>
      match r.answers with
      | [] => { answer := "-", evidence := [] }
      | a :: _ => a

/-- The double loop of `processQuestions`: for each selected note (outer)
and each question (inner), one QA request; the per-pair try/catch makes
every iteration total, so the loops are a `map` of a `map`.  One QAResult
per note, whose `answers` array is built in question order. -/
def processQuestions (qa : CustomerNote → String → QACallOutcome)
    (selectedNotes : List CustomerNote) (questionList : List String) :
    List QAResult :=
  selectedNotes.map fun note =>
    { noteId := note.NoteID
      customerName := note.CustomerName
      pmAuthor := note.ProductManagerName
      date := note.Date
      answers := questionList.map fun question => pairAnswer (qa note question) }

/-- Question derivation of `processQuestions`: split the textarea text on
newlines, trim each line, drop empties. -/
def deriveQuestions (questionsText : String) : List String :=
  ((questionsText.splitOn "\n").map fun q => q.trim).filter fun q =>
    q.length > 0

/-! ## The relevance-filtering pass of fetchNotes (source lines 157-185) -/

/-- Whether the relevance pass keeps a note: only a 2xx response with a
non-empty result list does. -/
def relevanceKeeps (rel : CustomerNote → RelevanceCallOutcome)
    (note : CustomerNote) : Bool :=
  match rel note with
  | .okResponse (_ :: _) => true
  | _ => false

/-- The per-note relevance loop: each note is sent in a singleton batch;
on a 2xx response with a non-empty result the first returned note is
pushed, on an empty result or non-2xx response nothing happens, and a
thrown error is caught (`catch (noteError)`) so the loop continues. -/
def filterRelevance (rel : CustomerNote → RelevanceCallOutcome) :
    List CustomerNote → List CustomerNote
  | [] => []
  | note :: rest =>
    match rel note with
    | .thrown => filterRelevance rel rest
    | .notOk => filterRelevance rel rest
    | .okResponse [] => filterRelevance rel rest
    | .okResponse (r :: _) => r :: filterRelevance rel rest

/-! ## fetchNotes (source lines 111-199) -/

/-- One run of `fetchNotes` against the collaborators `env`, returning the
new state and whether the failure `alert` was shown.  The try/catch/finally
structure: a throw from the fetch or transform call reaches the catch
(alert) and the finally (loading := false, progressStatus := "");
an empty fetch result returns early with no alert; on full success the
filtered notes are stored, selection defaults to all of them, and the
stage advances to review. -/
def fetchNotes (env : FetchEnv) (s : AppState) : AppState × Bool :=
  let s0 : AppState :=
    { s with loading := true
             progressStatus := "Fetching customer notes from database..." }
  match env.fetchResp with
  | .failed => ({ s0 with loading := false, progressStatus := "" }, true)
  | .ok data =>
    let s1 : AppState := { s0 with rawNotes := data, showNotesCount := true }
    if data.isEmpty then
      ({ s1 with loading := false, progressStatus := "" }, false)
    else
      match env.transformResp data with
      | .failed => ({ s1 with loading := false, progressStatus := "" }, true)
      | .ok transformedData =>
        let filteredData := filterRelevance env.relevance transformedData
        ({ s1 with filteredNotes := filteredData
                   selectedNotes := filteredData.map some
                   currentStep := .review
                   loading := false
                   progressStatus := "" }, false)

/-! ## toggleNoteSelection (source lines 281-287)

The source:
```
setSelectedNotes(prev =>
  prev.find(n => n.NoteID === noteId)
    ? prev.filter(n => n.NoteID !== noteId)
    : [...prev, filteredNotes.find(n => n.NoteID === noteId)!]);
```
`prev` can already contain `undefined` entries (pushed by the else
branch when the id is absent from `filteredNotes`); the callbacks then
read `.NoteID` of `undefined` and throw a TypeError, modelled as
`Except.error ()`. -/

/-- `prev.find(n => n.NoteID === noteId)` over a possibly-undefined-holding
array: stops at the first match, throws at the first `undefined` entry
reached before a match. -/
def jsFindByNoteId (noteId : String) :
    List (Option CustomerNote) → Except Unit (Option CustomerNote)
  | [] => .ok none
  | v :: rest =>
    match v with
    | none => .error ()
    | some n =>
      if n.NoteID == noteId then .ok (some n)
      else jsFindByNoteId noteId rest

/-- `prev.filter(n => n.NoteID !== noteId)`: visits every entry, so any
`undefined` entry anywhere makes it throw. -/
def jsFilterOutNoteId (noteId : String) :
    List (Option CustomerNote) → Except Unit (List (Option CustomerNote))
  | [] => .ok []
  | v :: rest =>
    match v with
    | none => .error ()
    | some n =>
      match jsFilterOutNoteId noteId rest with
      | .error e => .error e
      | .ok out =>
        .ok (if n.NoteID == noteId then out else some n :: out)

/-- `toggleNoteSelection`: remove the id if present in the selection,
otherwise push `filteredNotes.find(...)!` — which is `undefined` (`none`)
when the id is absent from `filteredNotes`, because the non-null assertion
is not checked at runtime. -/
def toggleNoteSelection (filteredNotes : List CustomerNote)
    (prev : List (Option CustomerNote)) (noteId : String) :
    Except Unit (List (Option CustomerNote)) :=
  match jsFindByNoteId noteId prev with
  | .error e => .error e
  | .ok (some _) => jsFilterOutNoteId noteId prev
  | .ok none =>
    .ok (prev ++ [List.find? (fun n => n.NoteID == noteId) filteredNotes])

/-! ## Operation sequences over the state -/

/-- One user-driven operation: a completed `fetchNotes` run against some
collaborator environment, or one `toggleNoteSelection` click. -/
inductive WorkflowOp where
  | fetchOp (env : FetchEnv)
  | toggleOp (noteId : String)

/-- Apply one operation to the state.  A toggle whose updater throws the
modelled TypeError leaves the state unchanged (React discards the update
and the component crashes; no new selection is committed). -/
def applyOp (s : AppState) : WorkflowOp → AppState
  | .fetchOp env => (fetchNotes env s).1
  | .toggleOp noteId =>
    match toggleNoteSelection s.filteredNotes s.selectedNotes noteId with
    | .ok sel => { s with selectedNotes := sel }
    | .error _ => s

/-- Run a sequence of operations from a state. -/
def runOps (s : AppState) : List WorkflowOp → AppState
  | [] => s
  | op :: rest => runOps (applyOp s op) rest

/-! ## calculateSummaryStats (source lines 289-312) -/

/-- Per-question counts of the four answer categories. -/
structure SummaryCounts where
  yes : Nat
  no : Nat
  maybe : Nat
  dash : Nat
deriving DecidableEq, Repr

/-- Per-question percentage strings of the four answer categories. -/
structure SummaryPercentages where
  yes : String
  no : String
  maybe : String
  dash : String
deriving DecidableEq, Repr

/-- One per-question summary entry. -/
structure SummaryStat where
  counts : SummaryCounts
  percentages : SummaryPercentages
  total : Nat
deriving DecidableEq, Repr

/-- `((count / total) * 100).toFixed(1)` in exact integer arithmetic:
the digits are floor(count/total*1000 + 1/2) = (2000*count + total) / (2*total),
ECMAScript toFixed rounding (nearest, the larger on a tie).  At the
arguments the theorems below evaluate (count = 0 and count = total) the
double-precision computation of the source is exact, so the two agree. -/
def toFixed1OfRatio (count total : Nat) : String :=
  let scaled := (2000 * count + total) / (2 * total)
  toString (scaled / 10) ++ "." ++ toString (scaled % 10)

/-- `result.answers[questionIndex]?.answer || '-'`: a missing cell gives
the sentinel, and `||` also replaces an empty answer string. -/
def answerAt (result : QAResult) (questionIndex : Nat) : String :=
  match result.answers[questionIndex]? with
  | none => "-"
  | some a => if a.answer == "" then "-" else a.answer

/-- The body of the per-question map of `calculateSummaryStats`: the
answer at this question index of every result, the four category counts,
and the percentage strings (the `total > 0` guard of the source is in the
percentage computation). -/
def summaryStatAt (qaResults : List QAResult) (questionIndex : Nat) :
    SummaryStat :=
  let answers := qaResults.map fun result => answerAt result questionIndex
  let total := answers.length
  let counts : SummaryCounts :=
    { yes := (answers.filter fun a => a == "Yes").length
      no := (answers.filter fun a => a == "No").length
      maybe := (answers.filter fun a => a == "Maybe").length
      dash := (answers.filter fun a => a == "-").length }
  let percentages : SummaryPercentages :=
    { yes := if total > 0 then toFixed1OfRatio counts.yes total else "0.0"
      no := if total > 0 then toFixed1OfRatio counts.no total else "0.0"
      maybe :=
        if total > 0 then toFixed1OfRatio counts.maybe total else "0.0"
      dash :=
        if total > 0 then toFixed1OfRatio counts.dash total else "0.0" }
  { counts := counts, percentages := percentages, total := total }

/-- `calculateSummaryStats`: an empty result or question list yields the
empty sequence; otherwise one entry per question index. -/
def calculateSummaryStats (questions : List String)
    (qaResults : List QAResult) : List SummaryStat :=
  if qaResults.length = 0 ∨ questions.length = 0 then []
  else (List.range questions.length).map (summaryStatAt qaResults)

/-! ## generateCSV (source lines 314-342) -/

/-- `Array.prototype.join(sep)` of JavaScript. -/
def joinSep (sep : String) : List String → String
  | [] => ""
  | [x] => x
  | x :: y :: rest => x ++ sep ++ joinSep sep (y :: rest)

/-- The CSV header cells: the three fixed columns, then per question the
question cell and its evidence cell. -/
def csvHeaders (questions : List String) : List String :=
  ["Customer Name", "PM Author", "Date"] ++
    questions.flatMap fun question => [question, "Evidence: " ++ question]

/-- One CSV data row's cells for a result: the three fixed columns, then
per answer the answer cell and the evidence cell (quotes joined with
a literal bar separator, each wrapped in double quotes). -/
def csvRow (result : QAResult) : List String :=
  [result.customerName, result.pmAuthor, result.date] ++
    result.answers.flatMap fun answer =>
      [answer.answer,
       joinSep " | " (answer.evidence.map fun e => "\"" ++ e ++ "\"")]

/-- `generateCSV`: `none` models the early return on an empty result list
(no CSV is produced); otherwise every cell is wrapped in double quotes,
cells joined with commas, lines joined with newlines. -/
def generateCSV (questions : List String) (qaResults : List QAResult) :
    Option String :=
  if qaResults.length = 0 then none
  else
    some (joinSep "\n"
      (((csvHeaders questions) :: qaResults.map csvRow).map fun row =>
        joinSep "," (row.map fun cell => "\"" ++ cell ++ "\"")))

/-! ## canNavigateToStep / navigateToStep (source lines 491-521) -/

/-- `stepOrder.indexOf(step)` for
`stepOrder = ['input', 'review', 'questions', 'results']`: the step
`notes` is absent from the array, so its index is -1. -/
def stepOrderIndex (step : AppStep) : Int :=
  match step with
  | .input => 0
  | .review => 1
  | .questions => 2
  | .results => 3
  | .notes => -1

/-- `canNavigateToStep`: a target at or before the current step (by
`stepOrder` index) is always allowed; a forward move needs the target's
prerequisite data; the switch's default case (forward to `input` or
`notes`, the latter unreachable since its index is -1) returns false. -/
def canNavigateToStep (s : AppState) (stepKey : AppStep) : Bool :=
  let currentIndex := stepOrderIndex s.currentStep
  let targetIndex := stepOrderIndex stepKey
  if targetIndex ≤ currentIndex then true
  else
    match stepKey with
    | .review => s.rawNotes.length > 0
    | .questions => s.selectedNotes.length > 0
    | .results => s.qaResults.length > 0
    | _ => false

/-- `navigateToStep`: guarded by `canNavigateToStep`; moving back to
`input` also clears the notes-count display and the progress text. -/
def navigateToStep (s : AppState) (stepKey : AppStep) : AppState :=
  if canNavigateToStep s stepKey then
    let s1 : AppState := { s with currentStep := stepKey }
    if stepKey = .input then
      { s1 with showNotesCount := false, progressStatus := "" }
    else s1
  else s

/-! ## Spec-side measuring devices and property abbreviations -/

/-- Splitting a character list at every occurrence of `c` (the spec's
"split into rows on the newline separator"; the source itself never
splits, this is the measuring device of the round-trip property). -/
def splitOnChar (c : Char) : List Char → List (List Char)
  | [] => [[]]
  | x :: xs =>
    match splitOnChar c xs with
    | [] => [[]]
    | r :: rs => if x = c then [] :: r :: rs else (x :: r) :: rs

/-- Number of rows of a text when split on the newline separator. -/
def csvRowCount (s : String) : Nat := (splitOnChar '\n' s.data).length

/-- A string with no newline character. -/
abbrev strNoNL (s : String) : Prop := '\n' ∉ s.data

/-- All string fields of a result are newline-free. -/
abbrev resultNoNL (r : QAResult) : Prop :=
  strNoNL r.customerName ∧ strNoNL r.pmAuthor ∧ strNoNL r.date ∧
    ∀ a ∈ r.answers, strNoNL a.answer ∧ ∀ e ∈ a.evidence, strNoNL e

/-- The note ids present in a selection array (an `undefined` entry has
no id). -/
def noteIds (l : List (Option CustomerNote)) : List String :=
  l.filterMap fun v => v.map fun n => n.NoteID

/-- Every selection entry that is an actual note has the id of some note
of `filteredNotes`. -/
def selectedProperSubset (s : AppState) : Prop :=
  ∀ v ∈ s.selectedNotes, ∀ n : CustomerNote, v = some n →
    ∃ m ∈ s.filteredNotes, m.NoteID = n.NoteID

/-- A QA call outcome that yields no usable answer: unsuccessful (thrown
or non-2xx), an empty result list, or a first result with no answers. -/
def qaCallYieldsNoAnswer (outcome : QACallOutcome) : Prop :=
  outcome = .failed ∨ outcome = .succeeded [] ∨
    ∃ r rest, outcome = .succeeded (r :: rest) ∧ r.answers = []

/-- The answer-matrix shape property of `processQuestions`: one result per
selected note in note order carrying that note's header fields, each with
exactly one answer per question in question order, the (i, j) cell being
determined by the outcome of the (note i, question j) QA request. -/
def processQuestionsSpec (qa : CustomerNote → String → QACallOutcome)
    (selectedNotes : List CustomerNote) (questionList : List String) : Prop :=
  (processQuestions qa selectedNotes questionList).length =
      selectedNotes.length ∧
    ∀ (i : Nat) (note : CustomerNote), selectedNotes[i]? = some note →
      ∃ r : QAResult,
        (processQuestions qa selectedNotes questionList)[i]? = some r ∧
        r.noteId = note.NoteID ∧ r.customerName = note.CustomerName ∧
        r.pmAuthor = note.ProductManagerName ∧ r.date = note.Date ∧
        r.answers.length = questionList.length ∧
        ∀ (j : Nat) (question : String), questionList[j]? = some question →
          r.answers[j]? = some (pairAnswer (qa note question))

/-- What one aborted `fetchNotes` run guarantees: the alert was shown, the
busy flag is back to false, and the stage, the filtered notes, the
selection and the results are unchanged. -/
def fetchAbortSpec (env : FetchEnv) (s : AppState) : Prop :=
  (fetchNotes env s).2 = true ∧
    (fetchNotes env s).1.loading = false ∧
    (fetchNotes env s).1.currentStep = s.currentStep ∧
    (fetchNotes env s).1.filteredNotes = s.filteredNotes ∧
    (fetchNotes env s).1.selectedNotes = s.selectedNotes ∧
    (fetchNotes env s).1.qaResults = s.qaResults

/-! ## Concrete data for the closed witnesses and counterexamples -/

/-- A concrete note with a given id and customer name. -/
def mkNote (noteId customer : String) : CustomerNote where
  CustomerName := customer
  ProductManagerName := "pm"
  NoteID := noteId
  Date := "2024-01"
  Subject := "subject"
  NoteContent := "<p>content</p>"
  CleanedNoteContent := "content"

def noteW1 : CustomerNote := mkNote "n1" "Acme"
def noteW2 : CustomerNote := mkNote "n2" "Globex"
def noteW3 : CustomerNote := mkNote "n3" "Initech"

/-- A QA collaborator that fails for the pair (note n1, question q2) and
otherwise answers Yes with one evidence quote. -/
def qaW (note : CustomerNote) (question : String) : QACallOutcome :=
  if note.NoteID == "n1" && question == "q2" then .failed
  else
    .succeeded [{ noteId := note.NoteID
                  customerName := note.CustomerName
                  pmAuthor := note.ProductManagerName
                  date := note.Date
                  answers := [{ answer := "Yes", evidence := ["quote"] }] }]

/-- A relevance collaborator that throws for note n2 and accepts every
other note (echoing it back in a singleton response). -/
def relW (note : CustomerNote) : RelevanceCallOutcome :=
  if note.NoteID == "n2" then .thrown else .okResponse [note]

/-- A collaborator environment whose initial fetch fails. -/
def envFetchFail : FetchEnv where
  fetchResp := .failed
  transformResp := fun _ => .failed
  relevance := fun _ => .thrown

/-- A state sitting on the results stage with an empty result list. -/
def stateResultsEmpty : AppState := { initialState with currentStep := .results }

/-- A state on the input stage holding one result. -/
def stateOneResult : AppState :=
  { initialState with
      qaResults := [{ noteId := "n1", customerName := "Acme", pmAuthor := "pm"
                      date := "2024-01"
                      answers := [{ answer := "Yes", evidence := [] }] }] }

/-- A result all of whose answers are Yes. -/
def resultAllYes : QAResult where
  noteId := "n1"
  customerName := "Acme"
  pmAuthor := "pm"
  date := "2024-01"
  answers := [{ answer := "Yes", evidence := ["quote"] }]

/-- A result whose customer name contains a newline character. -/
def resultNewline : QAResult where
  noteId := "n1"
  customerName := "a\nb"
  pmAuthor := "p"
  date := "d"
  answers := []

/-! ## C1: the answer matrix of processQuestions -/

/-- Claim C1: for every non-empty list of selected notes and every
non-empty question list, `processQuestions` produces exactly one QAResult
per selected note, in note order, whose answers sequence has exactly one
positionally aligned entry per question; a pair whose QA request is
unsuccessful, throws, or returns zero answers gets the sentinel
`{answer:"-", evidence:[]}` at that question's position, every other
position keeps the collaborator-provided first answer, and the loops
never abort (the operation is total). -/
theorem processQuestions_matrix (qa : CustomerNote → String → QACallOutcome)
    (selectedNotes : List CustomerNote) (questionList : List String)
    (hnotes : selectedNotes ≠ []) (hquestions : questionList ≠ []) :
    processQuestionsSpec qa selectedNotes questionList ∧
      (∀ outcome, qaCallYieldsNoAnswer outcome →
        pairAnswer outcome = { answer := "-", evidence := [] }) ∧
      (∀ (res : QAResult) (rest : List QAResult) (a : QAAnswer)
          (atl : List QAAnswer), res.answers = a :: atl →
        pairAnswer (.succeeded (res :: rest)) = a) := by
  refine ⟨⟨?_, ?_⟩, ?_, ?_⟩
  · simp [processQuestions]
  · intro i note hnote
    have hr : (processQuestions qa selectedNotes questionList)[i]? =
        some { noteId := note.NoteID
               customerName := note.CustomerName
               pmAuthor := note.ProductManagerName
               date := note.Date
               answers :=
                 questionList.map fun question =>
                   pairAnswer (qa note question) } := by
      rw [processQuestions, List.getElem?_map, hnote]
      rfl
    refine ⟨_, hr, rfl, rfl, rfl, rfl, ?_, ?_⟩
    · simp
    · intro j question hq
      rw [List.getElem?_map, hq]
      rfl
  · rintro outcome (rfl | rfl | ⟨r, rest, rfl, hr⟩)
    · rfl
    · rfl
    · simp [pairAnswer, hr]
  · intro res rest a atl ha
    simp [pairAnswer, ha]

/-- Closed witness for C1: two notes and two questions where the QA
collaborator fails exactly for (note n1, question q2). -/
theorem processQuestions_matrix_witness :
    (([noteW1, noteW2] : List CustomerNote) ≠ [] ∧
        (["q1", "q2"] : List String) ≠ []) ∧
      processQuestionsSpec qaW [noteW1, noteW2] ["q1", "q2"] ∧
      (∀ outcome, qaCallYieldsNoAnswer outcome →
        pairAnswer outcome = { answer := "-", evidence := [] }) ∧
      (∀ (res : QAResult) (rest : List QAResult) (a : QAAnswer)
          (atl : List QAAnswer), res.answers = a :: atl →
        pairAnswer (.succeeded (res :: rest)) = a) :=
  ⟨⟨by decide, by decide⟩,
    processQuestions_matrix qaW [noteW1, noteW2] ["q1", "q2"]
      (by decide) (by decide)⟩

/-! ## C2: per-note failure isolation of the relevance pass -/

/-- Claim C2: the relevance pass sends each note one at a time; a note
whose call throws, gets a non-2xx response, or returns an empty result is
dropped and processing continues, so (for a collaborator that echoes a
kept note back, its documented contract) the filtered list is exactly the
kept notes in their original relative order, and the pass is total — no
exception propagates. -/
theorem filterRelevance_keeps_in_order
    (rel : CustomerNote → RelevanceCallOutcome) (notes : List CustomerNote)
    (hecho : ∀ (note r : CustomerNote) (rest : List CustomerNote),
      rel note = .okResponse (r :: rest) → r = note) :
    filterRelevance rel notes = notes.filter (relevanceKeeps rel) := by
  induction notes with
  | nil => rfl
  | cons note rest ih =>
    cases h : rel note with
    | thrown =>
      simp [filterRelevance, List.filter_cons, relevanceKeeps, h, ih]
    | notOk =>
      simp [filterRelevance, List.filter_cons, relevanceKeeps, h, ih]
    | okResponse result =>
      cases result with
      | nil => simp [filterRelevance, List.filter_cons, relevanceKeeps, h, ih]
      | cons r rs =>
        have hr : r = note := hecho note r rs h
        subst hr
        simp [filterRelevance, List.filter_cons, relevanceKeeps, h, ih]

/-- Closed witness for C2: three notes where the collaborator throws for
note n2 and accepts n1 and n3; the filtered list is [n1, n3]. -/
theorem filterRelevance_keeps_in_order_witness :
    (∀ (note r : CustomerNote) (rest : List CustomerNote),
        relW note = .okResponse (r :: rest) → r = note) ∧
      filterRelevance relW [noteW1, noteW2, noteW3] =
        ([noteW1, noteW2, noteW3] : List CustomerNote).filter
          (relevanceKeeps relW) ∧
      filterRelevance relW [noteW1, noteW2, noteW3] = [noteW1, noteW3] := by
  have hecho : ∀ (note r : CustomerNote) (rest : List CustomerNote),
      relW note = .okResponse (r :: rest) → r = note := by
    intro note r rest h
    unfold relW at h
    split at h
    · exact RelevanceCallOutcome.noConfusion h
    · injection h with h1
      injection h1 with h2 h3
      exact h2.symm
  exact ⟨hecho,
    filterRelevance_keeps_in_order relW [noteW1, noteW2, noteW3] hecho,
    by decide⟩

/-! ## C3: batch-fatal failures of fetchNotes -/

/-- Claim C3: if the initial notes-fetch call or the batch HTML-cleaning
(transform) call fails, the whole `fetchNotes` operation aborts: the
failure alert is surfaced, the busy flag is restored to false, and the
stage, the filtered notes, the selection and the results are not
advanced (with the stage on Input, it stays on Input). -/
theorem fetchNotes_batch_failure_aborts (env : FetchEnv) (s : AppState)
    (hfail : env.fetchResp = .failed ∨
      ∃ data : List CustomerNote, env.fetchResp = .ok data ∧ data ≠ [] ∧
        env.transformResp data = .failed)
    (hstage : s.currentStep = .input) :
    fetchAbortSpec env s ∧ (fetchNotes env s).1.currentStep = .input := by
  rcases hfail with hfail | ⟨data, hok, hne, htr⟩
  · refine ⟨⟨?_, ?_, ?_, ?_, ?_, ?_⟩, ?_⟩ <;>
      simp [fetchAbortSpec, fetchNotes, hfail, hstage]
  · have hemp : data.isEmpty = false := by
      cases data with
      | nil => exact absurd rfl hne
      | cons a l => rfl
    refine ⟨⟨?_, ?_, ?_, ?_, ?_, ?_⟩, ?_⟩ <;>
      simp [fetchAbortSpec, fetchNotes, hok, hemp, htr, hstage]

/-- Closed witness for C3: a failing initial fetch from the initial
state. -/
theorem fetchNotes_batch_failure_aborts_witness :
    (envFetchFail.fetchResp = .failed ∧ initialState.currentStep = .input) ∧
      fetchAbortSpec envFetchFail initialState ∧
      (fetchNotes envFetchFail initialState).1.currentStep = .input :=
  ⟨⟨rfl, rfl⟩,
    fetchNotes_batch_failure_aborts envFetchFail initialState (Or.inl rfl) rfl⟩

/-! ## C5: the stage guard for Results and backward moves -/

/-- Counterexample to C5 as stated: from the Results stage itself the
guard for a Results move returns true even though `qaResults` is empty (a
same-stage move is always allowed), so the guard is not false for empty
results "regardless of the current stage". -/
theorem canNavigateToStep_results_claim_false :
    ¬ (∀ s : AppState, s.qaResults = [] →
        canNavigateToStep s AppStep.results = false) := by
  intro h
  exact absurd (h stateResultsEmpty rfl) (by decide)

/-- Claim C5, amended: from every stage strictly before Results in the
step order (equivalently, every current stage other than Results) the
guard for a Results move returns true iff `qaResults` is non-empty; and
every move whose target is at or before the current stage in the step
order is always allowed, irrespective of the data collected. -/
theorem canNavigateToStep_results_amended (s : AppState) :
    (s.currentStep ≠ AppStep.results →
      (canNavigateToStep s AppStep.results = true ↔ s.qaResults ≠ [])) ∧
      ∀ target : AppStep,
        stepOrderIndex target ≤ stepOrderIndex s.currentStep →
        canNavigateToStep s target = true := by
  constructor
  · intro hcur
    have hnot : ¬ (stepOrderIndex AppStep.results ≤
        stepOrderIndex s.currentStep) := by
      cases hstep : s.currentStep
      all_goals first | exact absurd hstep hcur | decide
    simp only [canNavigateToStep, if_neg hnot]
    simp [List.length_pos]
  · intro target htarget
    simp [canNavigateToStep, htarget]

/-- Closed witness for C5 (amended): on the Input stage with one result
the Results move is allowed, and the backward move to Input is allowed. -/
theorem canNavigateToStep_results_amended_witness :
    (stateOneResult.currentStep ≠ AppStep.results ∧
        stateOneResult.qaResults ≠ [] ∧
        stepOrderIndex AppStep.input ≤
          stepOrderIndex stateOneResult.currentStep) ∧
      canNavigateToStep stateOneResult AppStep.results = true ∧
      canNavigateToStep stateOneResult AppStep.input = true :=
  ⟨⟨by decide, by decide, by decide⟩,
    ((canNavigateToStep_results_amended stateOneResult).1 (by decide)).mpr
      (by decide),
    (canNavigateToStep_results_amended stateOneResult).2 AppStep.input
      (by decide)⟩

/-! ## C10: the guard and navigation for the step `notes` -/

/-- Claim C10: the step `notes` is missing from the four-element step
order used for index comparison, so its index is -1 and a move to it is
always treated as a backward move: the guard returns true from every
state, and `navigateToStep` moves the UI to the `notes` stage
unconditionally. -/
theorem navigateToStep_notes_always (s : AppState) :
    stepOrderIndex AppStep.notes = -1 ∧
      canNavigateToStep s AppStep.notes = true ∧
      (navigateToStep s AppStep.notes).currentStep = AppStep.notes := by
  have hcan : canNavigateToStep s AppStep.notes = true := by
    cases h : s.currentStep <;> simp [canNavigateToStep, stepOrderIndex, h]
  refine ⟨rfl, hcan, ?_⟩
  simp [navigateToStep, hcan]

/-! ## C6: summary statistics at the boundary cases -/

/-- The percentage string of a full count: count = total > 0 gives
"100.0". -/
theorem toFixed1OfRatio_full (total : Nat) (htotal : 0 < total) :
    toFixed1OfRatio total total = "100.0" := by
  have hscaled : (2000 * total + total) / (2 * total) = 1000 := by
    have h1 : 2000 * total + total = 2 * total * 1000 + total := by ring
    rw [h1, Nat.mul_add_div (by positivity),
      Nat.div_eq_of_lt (by omega)]
  rw [toFixed1OfRatio]
  rw [hscaled]
  decide

/-- The percentage string of a zero count out of a positive total is
"0.0". -/
theorem toFixed1OfRatio_zero (total : Nat) (htotal : 0 < total) :
    toFixed1OfRatio 0 total = "0.0" := by
  have hscaled : (2000 * 0 + total) / (2 * total) = 0 := by
    rw [Nat.mul_zero, Nat.zero_add]
    exact Nat.div_eq_of_lt (by omega)
  rw [toFixed1OfRatio]
  rw [hscaled]
  decide

/-- Counterexample to C6 as stated: with one question and zero results,
`calculateSummaryStats` returns the empty sequence, so there is no
per-question entry carrying "0.0" percentages. -/
theorem calculateSummaryStats_zero_claim_false :
    ¬ (∀ i : Nat, i < (["Did the customer request a pilot?"].length : Nat) →
        ∃ stat : SummaryStat,
          (calculateSummaryStats ["Did the customer request a pilot?"]
              [])[i]? = some stat ∧
            stat.percentages =
              { yes := "0.0", no := "0.0", maybe := "0.0", dash := "0.0" }) := by
  intro h
  obtain ⟨stat, hstat, -⟩ := h 0 (by decide)
  rw [show calculateSummaryStats ["Did the customer request a pilot?"] [] =
      [] from rfl] at hstat
  exact Option.noConfusion hstat

/-- Claim C6, amended: with zero results `calculateSummaryStats` returns
the empty sequence (no entry, no NaN, no error — the zero-denominator
branch is never exercised, since any per-question entry averages over a
non-empty result list); and for a non-empty result list all of whose
answers at a question index are "Yes", that index's entry counts every
result as Yes and its percentages are Yes "100.0" and "0.0" for the other
three categories. -/
theorem calculateSummaryStats_amended (questions : List String)
    (qaResults : List QAResult) :
    calculateSummaryStats questions [] = [] ∧
      ∀ i : Nat, i < questions.length → qaResults ≠ [] →
        (∀ r ∈ qaResults, answerAt r i = "Yes") →
        ∃ stat : SummaryStat,
          (calculateSummaryStats questions qaResults)[i]? = some stat ∧
            stat.total = qaResults.length ∧
            stat.counts.yes = qaResults.length ∧
            stat.counts.no = 0 ∧ stat.counts.maybe = 0 ∧
            stat.counts.dash = 0 ∧
            stat.percentages.yes = "100.0" ∧ stat.percentages.no = "0.0" ∧
            stat.percentages.maybe = "0.0" ∧
            stat.percentages.dash = "0.0" := by
  constructor
  · simp [calculateSummaryStats]
  · intro i hi hne hyes
    have hcond : ¬ (qaResults.length = 0 ∨ questions.length = 0) := by
      push_neg
      constructor
      · simpa [List.length_eq_zero] using hne
      · omega
    have hlen : 0 < qaResults.length := by
      have := List.length_pos.mpr hne
      omega
    have hall : ∀ a ∈ qaResults.map (fun result => answerAt result i),
        a = "Yes" := by
      intro a ha
      obtain ⟨r, hr, hra⟩ := List.mem_map.mp ha
      rw [← hra]
      exact hyes r hr
    have hmaplen : (qaResults.map (fun result => answerAt result i)).length =
        qaResults.length := List.length_map ..
    have hyesfilter :
        ((qaResults.map (fun result => answerAt result i)).filter
            fun a => a == "Yes").length = qaResults.length := by
      rw [List.filter_eq_self.mpr ?_, hmaplen]
      intro a ha
      simp [hall a ha]
    have hother : ∀ other : String, other ≠ "Yes" →
        ((qaResults.map (fun result => answerAt result i)).filter
            fun a => a == other).length = 0 := by
      intro other hother
      rw [List.length_eq_zero]
      rw [List.filter_eq_nil_iff]
      intro a ha
      rw [hall a ha]
      simp [beq_iff_eq]
      exact fun h => hother h.symm
    have h1 : (0 : Nat) < (qaResults.map
        (fun result => answerAt result i)).length := by omega
    refine ⟨summaryStatAt qaResults i, ?_, ?_, ?_, ?_, ?_, ?_, ?_, ?_, ?_, ?_⟩
    · rw [calculateSummaryStats, if_neg hcond, List.getElem?_map,
        List.getElem?_range hi]
      rfl
    · simp only [summaryStatAt]
      exact hmaplen
    · simp only [summaryStatAt]
      exact hyesfilter
    · simp only [summaryStatAt]
      exact hother "No" (by decide)
    · simp only [summaryStatAt]
      exact hother "Maybe" (by decide)
    · simp only [summaryStatAt]
      exact hother "-" (by decide)
    · simp only [summaryStatAt, gt_iff_lt, if_pos h1]
      rw [hyesfilter, hmaplen]
      exact toFixed1OfRatio_full qaResults.length hlen
    · simp only [summaryStatAt, gt_iff_lt, if_pos h1]
      rw [hother "No" (by decide), hmaplen]
      exact toFixed1OfRatio_zero qaResults.length hlen
    · simp only [summaryStatAt, gt_iff_lt, if_pos h1]
      rw [hother "Maybe" (by decide), hmaplen]
      exact toFixed1OfRatio_zero qaResults.length hlen
    · simp only [summaryStatAt, gt_iff_lt, if_pos h1]
      rw [hother "-" (by decide), hmaplen]
      exact toFixed1OfRatio_zero qaResults.length hlen

/-- Closed witness for C6 (amended): one question, one all-Yes result. -/
theorem calculateSummaryStats_amended_witness :
    (0 < (["q"] : List String).length ∧
        ([resultAllYes] : List QAResult) ≠ [] ∧
        ∀ r ∈ ([resultAllYes] : List QAResult), answerAt r 0 = "Yes") ∧
      ∃ stat : SummaryStat,
        (calculateSummaryStats ["q"] [resultAllYes])[0]? = some stat ∧
          stat.total = ([resultAllYes] : List QAResult).length ∧
          stat.counts.yes = ([resultAllYes] : List QAResult).length ∧
          stat.counts.no = 0 ∧ stat.counts.maybe = 0 ∧
          stat.counts.dash = 0 ∧
          stat.percentages.yes = "100.0" ∧ stat.percentages.no = "0.0" ∧
          stat.percentages.maybe = "0.0" ∧ stat.percentages.dash = "0.0" :=
  ⟨⟨by decide, by decide, by decide⟩,
    (calculateSummaryStats_amended ["q"] [resultAllYes]).2 0 (by decide)
      (by decide) (by decide)⟩

/-! ## Helper lemmas about the JavaScript array operations on selections -/

/-- On an array of actual notes, the JavaScript find throws nothing and
agrees with `List.find?`. -/
theorem jsFind_map_some (noteId : String) (ns : List CustomerNote) :
    jsFindByNoteId noteId (ns.map some) =
      .ok (ns.find? fun n => n.NoteID == noteId) := by
  induction ns with
  | nil => rfl
  | cons n t ih =>
    cases hp : n.NoteID == noteId <;>
      simp [jsFindByNoteId, List.find?_cons, hp, ih]

/-- On an array of actual notes, the JavaScript filter throws nothing and
agrees with `List.filter`. -/
theorem jsFilterOut_map_some (noteId : String) (ns : List CustomerNote) :
    jsFilterOutNoteId noteId (ns.map some) =
      .ok ((ns.filter fun n => !(n.NoteID == noteId)).map some) := by
  induction ns with
  | nil => rfl
  | cons n t ih =>
    cases hp : n.NoteID == noteId <;>
      simp [jsFilterOutNoteId, List.filter_cons, hp, ih]

/-- A successful JavaScript filter only keeps entries of its input. -/
theorem jsFilterOut_ok_mem (noteId : String)
    (l out : List (Option CustomerNote))
    (h : jsFilterOutNoteId noteId l = .ok out) :
    ∀ v ∈ out, v ∈ l := by
  induction l generalizing out with
  | nil =>
    injection h with h1
    subst h1
    intro v hv
    exact absurd hv (List.not_mem_nil v)
  | cons v0 t ih =>
    cases v0 with
    | none => exact Except.noConfusion h
    | some n =>
      rw [jsFilterOutNoteId] at h
      cases hrec : jsFilterOutNoteId noteId t with
      | error e => rw [hrec] at h; exact Except.noConfusion h
      | ok out' =>
        rw [hrec] at h
        injection h with h1
        subst h1
        intro v hv
        cases hp : n.NoteID == noteId with
        | true =>
          rw [hp] at hv
          simp only [if_pos rfl] at hv
          exact List.mem_cons_of_mem _ (ih out' hrec v hv)
        | false =>
          rw [hp] at hv
          simp only [Bool.false_eq_true, if_neg] at hv
          rcases List.mem_cons.mp hv with hv | hv
          · exact hv ▸ List.mem_cons_self _ _
          · exact List.mem_cons_of_mem _ (ih out' hrec v hv)

/-- The note ids of an array of actual notes. -/
theorem noteIds_map_some (ns : List CustomerNote) :
    noteIds (ns.map some) = ns.map fun n => n.NoteID := by
  induction ns with
  | nil => rfl
  | cons n t ih =>
    simp only [noteIds, List.map_cons, List.filterMap_cons] at ih ⊢
    simp [ih]

/-- `noteIds` distributes over append. -/
theorem noteIds_append (a b : List (Option CustomerNote)) :
    noteIds (a ++ b) = noteIds a ++ noteIds b :=
  List.filterMap_append ..

/-! ## C4: the selection-subset invariant -/

/-- One operation preserves the proper-entry selection invariant. -/
theorem selectedProperSubset_applyOp {s : AppState} (op : WorkflowOp)
    (h : selectedProperSubset s) : selectedProperSubset (applyOp s op) := by
  cases op with
  | fetchOp env =>
    show selectedProperSubset (fetchNotes env s).1
    rw [fetchNotes]
    cases henv : env.fetchResp with
    | failed => exact h
    | ok data =>
      by_cases hemp : data.isEmpty
      · simp only [hemp, if_pos]
        exact h
      · simp only [hemp, if_neg, Bool.false_eq_true, not_false_eq_true]
        cases htr : env.transformResp data with
        | failed => exact h
        | ok transformedData =>
          intro v hv n hvn
          simp only at hv
          obtain ⟨x, hx, hxv⟩ := List.mem_map.mp hv
          rw [← hxv] at hvn
          injection hvn with hxn
          exact ⟨n, hxn ▸ hx, rfl⟩
  | toggleOp noteId =>
    show selectedProperSubset
      (match toggleNoteSelection s.filteredNotes s.selectedNotes noteId with
        | .ok sel => { s with selectedNotes := sel }
        | .error _ => s)
    rw [toggleNoteSelection]
    cases hfind : jsFindByNoteId noteId s.selectedNotes with
    | error e => exact h
    | ok found =>
      cases found with
      | some hit =>
        cases hfilter : jsFilterOutNoteId noteId s.selectedNotes with
        | error e => exact h
        | ok out =>
          intro v hv n hvn
          exact h v (jsFilterOut_ok_mem noteId s.selectedNotes out hfilter v hv)
            n hvn
      | none =>
        intro v hv n hvn
        simp only at hv
        rcases List.mem_append.mp hv with hv | hv
        · exact h v hv n hvn
        · rcases List.mem_singleton.mp hv with rfl
          cases hF : List.find? (fun m => m.NoteID == noteId)
              s.filteredNotes with
          | none => rw [hF] at hvn; exact Option.noConfusion hvn
          | some m =>
            rw [hF] at hvn
            injection hvn with hmn
            exact ⟨n, hmn ▸ List.mem_of_find?_eq_some hF, rfl⟩

/-- Counterexample to C4 as stated: starting from the initial state, a
single toggle with an id absent from `filteredNotes` leaves an entry in
`selectedNotes` (the pushed `undefined`) that is not a note whose id
occurs in `filteredNotes`, so the selection is not a subset of the
filtered notes by identifier. -/
theorem selected_subset_claim_false :
    ¬ (∀ ops : List WorkflowOp,
        ∀ v ∈ (runOps initialState ops).selectedNotes,
          ∃ n : CustomerNote, v = some n ∧
            n.NoteID ∈ (runOps initialState ops).filteredNotes.map
              fun m => m.NoteID) := by
  intro h
  obtain ⟨n, hn, -⟩ :=
    h [WorkflowOp.toggleOp "missing"] none (by decide)
  exact Option.noConfusion hn

/-- Claim C4, amended: for every sequence of completed `fetchAndFilterNotes`
runs and `toggleNoteSelection` calls with arbitrary noteId arguments from
the initial state, every entry of `selectedNotes` that is an actual note
has a noteId that is also the noteId of some note in `filteredNotes`.
(The claim as stated fails only because toggling an id absent from
`filteredNotes` appends an `undefined` entry — which is not a note — to
the selection.) -/
theorem selected_subset_amended (ops : List WorkflowOp) :
    selectedProperSubset (runOps initialState ops) := by
  have key : ∀ (l : List WorkflowOp) (s : AppState), selectedProperSubset s →
      selectedProperSubset (runOps s l) := by
    intro l
    induction l with
    | nil => intro s hs; exact hs
    | cons op rest ih =>
      intro s hs
      exact ih (applyOp s op) (selectedProperSubset_applyOp op hs)
  refine key ops initialState ?_
  intro v hv n hvn
  exact absurd hv (List.not_mem_nil v)

/-! ## C7: toggling an id absent from the filtered notes -/

/-- Claim C7 names a silent no-op, but the code appends `undefined`: with
an empty filtered list and empty selection, toggling the id "x" succeeds
and produces the selection `[undefined]` instead of leaving the selection
unchanged (the non-null-asserted `filteredNotes.find(...)!` produced
`undefined` and it was pushed). -/
theorem toggle_missing_id_appends_undefined :
    toggleNoteSelection [] [] "x" = .ok [none] ∧
      ([none] : List (Option CustomerNote)) ≠ [] :=
  ⟨rfl, by decide⟩

/-! ## C8: double toggle and selection membership -/

/-- Counterexample to C8 as stated: from the (reachable) empty state,
toggling the id "x" succeeds and appends `undefined`; the second toggle
then throws a TypeError while scanning the selection, so the double
toggle does not return the selection to its original membership — it does
not return at all. -/
theorem toggle_twice_claim_false :
    ¬ (∃ s₁ s₂ : List (Option CustomerNote),
        toggleNoteSelection [] [] "x" = .ok s₁ ∧
          toggleNoteSelection [] s₁ "x" = .ok s₂ ∧
          ∀ x, x ∈ noteIds s₂ ↔
            x ∈ noteIds ([] : List (Option CustomerNote))) := by
  rintro ⟨s₁, s₂, h₁, h₂, -⟩
  rw [show toggleNoteSelection [] [] "x" = .ok [none] from rfl] at h₁
  injection h₁ with h₁
  subst h₁
  rw [show toggleNoteSelection [] [none] "x" = .error () from rfl] at h₂
  exact Except.noConfusion h₂

/-- Claim C8, amended: for every selection consisting of actual notes and
every id that occurs in `filteredNotes`, toggling the id twice in
succession succeeds both times and returns `selectedNotes` to its
original membership of note ids.  (For an id absent from `filteredNotes`
the first toggle appends an `undefined` entry and a repeat toggle throws
a TypeError, which is what the counterexample exhibits.) -/
theorem toggle_twice_restores_ids (F : List CustomerNote)
    (ns : List CustomerNote) (noteId : String)
    (hid : ∃ m ∈ F, m.NoteID = noteId) :
    ∃ s₁ s₂ : List (Option CustomerNote),
      toggleNoteSelection F (ns.map some) noteId = .ok s₁ ∧
        toggleNoteSelection F s₁ noteId = .ok s₂ ∧
        ∀ x, x ∈ noteIds s₂ ↔ x ∈ noteIds (ns.map some) := by
  obtain ⟨m0, hm0F, hm0id⟩ := hid
  have hFsome : (F.find? fun n => n.NoteID == noteId).isSome :=
    List.find?_isSome.mpr ⟨m0, hm0F, by simp [hm0id]⟩
  obtain ⟨m', hm'⟩ := Option.isSome_iff_exists.mp hFsome
  have hm'id : m'.NoteID = noteId := by
    simpa using List.find?_some hm'
  cases hfind : ns.find? (fun n => n.NoteID == noteId) with
  | some a =>
    have ha_id : a.NoteID = noteId := by simpa using List.find?_some hfind
    have ha_mem : a ∈ ns := List.mem_of_find?_eq_some hfind
    have ht1 : toggleNoteSelection F (ns.map some) noteId =
        .ok ((ns.filter fun n => !(n.NoteID == noteId)).map some) := by
      simp only [toggleNoteSelection, jsFind_map_some, hfind]
      exact jsFilterOut_map_some noteId ns
    have hfind1 : (ns.filter fun n => !(n.NoteID == noteId)).find?
        (fun n => n.NoteID == noteId) = none := by
      rw [List.find?_eq_none]
      intro x hx
      have hx2 := (List.mem_filter.mp hx).2
      simp only [Bool.not_eq_eq_eq_not, Bool.not_true, beq_eq_false_iff_ne,
        ne_eq] at hx2
      simpa using hx2
    have ht2 : toggleNoteSelection F
        ((ns.filter fun n => !(n.NoteID == noteId)).map some) noteId =
        .ok (((ns.filter fun n => !(n.NoteID == noteId)).map some) ++
          [some m']) := by
      simp only [toggleNoteSelection, jsFind_map_some, hfind1, hm']
    refine ⟨_, _, ht1, ht2, ?_⟩
    intro x
    rw [noteIds_append, noteIds_map_some, noteIds_map_some,
      show noteIds [some m'] = [m'.NoteID] from rfl]
    simp only [List.mem_append, List.mem_map, List.mem_singleton]
    constructor
    · rintro (⟨n, hn, rfl⟩ | rfl)
      · exact ⟨n, (List.mem_filter.mp hn).1, rfl⟩
      · exact ⟨a, ha_mem, by rw [ha_id, hm'id]⟩
    · rintro ⟨n, hn, rfl⟩
      by_cases hx : n.NoteID = noteId
      · right
        rw [hx, hm'id]
      · left
        exact ⟨n, List.mem_filter.mpr ⟨hn, by simp [hx]⟩, rfl⟩
  | none =>
    have hnone : ∀ n ∈ ns, ¬ (n.NoteID = noteId) := by
      intro n hn
      simpa using List.find?_eq_none.mp hfind n hn
    have ht1 : toggleNoteSelection F (ns.map some) noteId =
        .ok (ns.map some ++ [some m']) := by
      simp only [toggleNoteSelection, jsFind_map_some, hfind, hm']
    have hmapappend : ns.map some ++ [some m'] = (ns ++ [m']).map some := by
      rw [List.map_append]
      rfl
    have hfind2 : (ns ++ [m']).find? (fun n => n.NoteID == noteId) =
        some m' := by
      simp [List.find?_append, hfind, List.find?_cons, hm'id]
    have hfilter2 : (ns ++ [m']).filter (fun n => !(n.NoteID == noteId)) =
        ns := by
      rw [List.filter_append]
      have h1 : ns.filter (fun n => !(n.NoteID == noteId)) = ns :=
        List.filter_eq_self.mpr (by intro n hn; simp [hnone n hn])
      have h2 : ([m'] : List CustomerNote).filter
          (fun n => !(n.NoteID == noteId)) = [] := by
        simp [List.filter_cons, hm'id]
      rw [h1, h2, List.append_nil]
    have ht2 : toggleNoteSelection F ((ns ++ [m']).map some) noteId =
        .ok (ns.map some) := by
      simp only [toggleNoteSelection, jsFind_map_some, hfind2]
      rw [jsFilterOut_map_some, hfilter2]
    refine ⟨ns.map some ++ [some m'], ns.map some, ht1, ?_, ?_⟩
    · rw [hmapappend]
      exact ht2
    · intro x
      exact Iff.rfl

/-- Closed witness for C8 (amended): one filtered note with id n1, an
empty selection; toggling n1 twice succeeds and restores the (empty) id
membership. -/
theorem toggle_twice_restores_ids_witness :
    (∃ m ∈ ([noteW1] : List CustomerNote), m.NoteID = "n1") ∧
      ∃ s₁ s₂ : List (Option CustomerNote),
        toggleNoteSelection [noteW1]
            (([] : List CustomerNote).map some) "n1" = .ok s₁ ∧
          toggleNoteSelection [noteW1] s₁ "n1" = .ok s₂ ∧
          ∀ x, x ∈ noteIds s₂ ↔
            x ∈ noteIds (([] : List CustomerNote).map some) :=
  ⟨⟨noteW1, by decide, by decide⟩,
    toggle_twice_restores_ids [noteW1] [] "n1" ⟨noteW1, by decide, by decide⟩⟩

/-! ## C9: the row count of the generated CSV -/

/-- `splitOnChar` never yields the empty list. -/
theorem splitOnChar_ne_nil (c : Char) (l : List Char) :
    splitOnChar c l ≠ [] := by
  cases l with
  | nil => exact fun h => List.noConfusion h
  | cons x xs =>
    rw [splitOnChar]
    cases h : splitOnChar c xs with
    | nil => exact fun h2 => List.noConfusion h2
    | cons r rs =>
      by_cases hx : x = c <;> simp [hx]

/-- Splitting a list free of the separator yields that one piece. -/
theorem splitOnChar_of_not_mem (c : Char) (l : List Char) (h : c ∉ l) :
    splitOnChar c l = [l] := by
  induction l with
  | nil => rfl
  | cons x xs ih =>
    have hx : x ≠ c := fun hxc => h (hxc ▸ List.mem_cons_self x xs)
    have hxs : c ∉ xs := fun hc => h (List.mem_cons_of_mem x hc)
    rw [splitOnChar, ih hxs]
    simp [hx]

/-- Splitting at the first separator occurrence peels off the first
piece. -/
theorem splitOnChar_append_cons (c : Char) (a b : List Char) (h : c ∉ a) :
    splitOnChar c (a ++ c :: b) = a :: splitOnChar c b := by
  induction a with
  | nil =>
    simp only [List.nil_append]
    rw [splitOnChar]
    cases hb : splitOnChar c b with
    | nil => exact absurd hb (splitOnChar_ne_nil c b)
    | cons r rs => simp
  | cons x xs ih =>
    have hx : x ≠ c := fun hxc => h (hxc ▸ List.mem_cons_self x xs)
    have hxs : c ∉ xs := fun hc => h (List.mem_cons_of_mem x hc)
    rw [List.cons_append, splitOnChar, ih hxs]
    simp [hx]

/-- The number of rows of a newline join of newline-free lines is the
number of lines. -/
theorem splitRows_joinSep (lines : List String)
    (hlines : ∀ l ∈ lines, strNoNL l) (hne : lines ≠ []) :
    (splitOnChar '\n' (joinSep "\n" lines).data).length = lines.length := by
  induction lines with
  | nil => exact absurd rfl hne
  | cons x ys ih =>
    cases ys with
    | nil =>
      rw [joinSep,
        splitOnChar_of_not_mem '\n' x.data (hlines x (List.mem_cons_self ..))]
      rfl
    | cons y zs =>
      have hx : strNoNL x := hlines x (List.mem_cons_self ..)
      have hdata : (x ++ "\n" ++ joinSep "\n" (y :: zs)).data =
          x.data ++ '\n' :: (joinSep "\n" (y :: zs)).data := by
        rw [String.data_append, String.data_append, List.append_assoc]
        rfl
      rw [show joinSep "\n" (x :: y :: zs) =
          x ++ "\n" ++ joinSep "\n" (y :: zs) from rfl,
        hdata, splitOnChar_append_cons '\n' x.data _ hx]
      have ihr := ih (fun l hl => hlines l (List.mem_cons_of_mem x hl))
        (fun h2 => List.noConfusion h2)
      simp [ihr]

/-- Appending newline-free strings is newline-free. -/
theorem strNoNL_append (a b : String) (ha : strNoNL a) (hb : strNoNL b) :
    strNoNL (a ++ b) := by
  intro h
  rw [String.data_append] at h
  rcases List.mem_append.mp h with h | h
  · exact ha h
  · exact hb h

/-- Joining newline-free strings with a newline-free separator is
newline-free. -/
theorem strNoNL_joinSep (sep : String) (l : List String)
    (hsep : strNoNL sep) (hl : ∀ x ∈ l, strNoNL x) :
    strNoNL (joinSep sep l) := by
  induction l with
  | nil => exact fun h => List.not_mem_nil _ h
  | cons x ys ih =>
    cases ys with
    | nil => exact hl x (List.mem_cons_self ..)
    | cons y zs =>
      exact strNoNL_append _ _
        (strNoNL_append _ _ (hl x (List.mem_cons_self ..)) hsep)
        (ih fun z hz => hl z (List.mem_cons_of_mem x hz))

/-- A CSV line built from newline-free cells is newline-free. -/
theorem csvLine_noNL (row : List String)
    (hrow : ∀ cell ∈ row, strNoNL cell) :
    strNoNL (joinSep "," (row.map fun cell => "\"" ++ cell ++ "\"")) := by
  refine strNoNL_joinSep "," _ (by decide) ?_
  intro x hx
  obtain ⟨cell, hcell, rfl⟩ := List.mem_map.mp hx
  exact strNoNL_append _ _
    (strNoNL_append _ _ (by decide) (hrow cell hcell)) (by decide)

/-- The header cells are newline-free when the questions are. -/
theorem csvHeaders_noNL (questions : List String)
    (hq : ∀ q ∈ questions, strNoNL q) :
    ∀ cell ∈ csvHeaders questions, strNoNL cell := by
  intro cell hcell
  rw [csvHeaders] at hcell
  rcases List.mem_append.mp hcell with h | h
  · simp only [List.mem_cons, List.not_mem_nil, or_false] at h
    rcases h with rfl | rfl | rfl
    · decide
    · decide
    · decide
  · obtain ⟨q, hq2, hc⟩ := List.mem_flatMap.mp h
    simp only [List.mem_cons, List.not_mem_nil, or_false] at hc
    rcases hc with hc | hc
    · rw [hc]
      exact hq q hq2
    · rw [hc]
      exact strNoNL_append _ _ (by decide) (hq q hq2)

/-- The data-row cells of a newline-free result are newline-free. -/
theorem csvRow_noNL (result : QAResult) (hres : resultNoNL result) :
    ∀ cell ∈ csvRow result, strNoNL cell := by
  obtain ⟨h1, h2, h3, h4⟩ := hres
  intro cell hcell
  rw [csvRow] at hcell
  rcases List.mem_append.mp hcell with h | h
  · simp only [List.mem_cons, List.not_mem_nil, or_false] at h
    rcases h with rfl | rfl | rfl
    · exact h1
    · exact h2
    · exact h3
  · obtain ⟨a, ha, hc⟩ := List.mem_flatMap.mp h
    simp only [List.mem_cons, List.not_mem_nil, or_false] at hc
    rcases hc with rfl | rfl
    · exact (h4 a ha).1
    · refine strNoNL_joinSep " | " _ (by decide) ?_
      intro x hx
      obtain ⟨e, he, rfl⟩ := List.mem_map.mp hx
      exact strNoNL_append _ _
        (strNoNL_append _ _ (by decide) ((h4 a ha).2 e he)) (by decide)

/-- Counterexample to C9 as stated: a single result whose customer name
contains a newline makes the CSV split into three rows, not
`results.length + 1 = 2`, because the source does not escape embedded
newlines in cells. -/
theorem generateCSV_row_count_claim_false :
    ¬ (∀ (questions : List String) (qaResults : List QAResult),
        qaResults ≠ [] →
        (generateCSV questions qaResults).map csvRowCount =
          some (qaResults.length + 1)) := by
  intro h
  exact absurd (h [] [resultNewline] (by decide)) (by decide)

/-- Claim C9, amended: for every non-empty result list and question list
all of whose string fields are newline-free (the source quotes cells but
does not escape embedded newlines), the CSV text splits on the newline
separator into exactly one header row plus one row per result. -/
theorem generateCSV_row_count (questions : List String)
    (qaResults : List QAResult) (hne : qaResults ≠ [])
    (hq : ∀ q ∈ questions, strNoNL q)
    (hr : ∀ r ∈ qaResults, resultNoNL r) :
    (generateCSV questions qaResults).map csvRowCount =
      some (qaResults.length + 1) := by
  have hlen0 : ¬ (qaResults.length = 0) := by
    simpa [List.length_eq_zero] using hne
  rw [generateCSV, if_neg hlen0]
  show some (csvRowCount _) = _
  have hlines : ∀ line ∈ ((csvHeaders questions :: qaResults.map csvRow).map
      fun row => joinSep "," (row.map fun cell => "\"" ++ cell ++ "\"")),
      strNoNL line := by
    intro line hline
    obtain ⟨row, hrow, rfl⟩ := List.mem_map.mp hline
    rcases List.mem_cons.mp hrow with rfl | hrow
    · exact csvLine_noNL _ (csvHeaders_noNL questions hq)
    · obtain ⟨r, hr2, rfl⟩ := List.mem_map.mp hrow
      exact csvLine_noNL _ (csvRow_noNL r (hr r hr2))
  rw [csvRowCount, splitRows_joinSep _ hlines (by simp)]
  simp

/-- Closed witness for C9 (amended): one newline-free question and one
newline-free result produce a two-row CSV. -/
theorem generateCSV_row_count_witness :
    (([resultAllYes] : List QAResult) ≠ [] ∧
        (∀ q ∈ (["q"] : List String), strNoNL q) ∧
        ∀ r ∈ ([resultAllYes] : List QAResult), resultNoNL r) ∧
      (generateCSV ["q"] [resultAllYes]).map csvRowCount =
        some (([resultAllYes] : List QAResult).length + 1) :=
  ⟨⟨by decide, by decide, by decide⟩,
    generateCSV_row_count ["q"] [resultAllYes] (by decide) (by decide)
      (by decide)⟩
